import Mathlib

/-!
Verification development for the analytical core of the credit-insight
service: the CSV row parser and categorizer
(src/statements/services/csv-parser.service.ts), the insights computation
engine (src/insights/services/insights-computation.service.ts), and the
retrying bureau HTTP client (bureau-http-client.service.ts).

JavaScript numbers are modelled as exact rationals (the spec itself leaves
binary floating-point rounding at the cent boundary as an open question and
we idealize it away); JavaScript dates are modelled by their epoch-millisecond
value as integers.
-/

namespace CreditInsight

/-- Transaction direction, from the TransactionType enum in
transaction.entity.ts. -/
inductive TransactionType where
  | debit
  | credit
deriving DecidableEq, Repr

/-- Transaction category enumeration, from the TransactionCategory enum in
transaction.entity.ts. -/
inductive TransactionCategory where
  | income
  | transfer
  | groceries
  | entertainment
  | transport
  | utilities
  | healthcare
  | shopping
  | dining
  | education
  | investment
  | loanPayment
  | feesCharges
  | other
deriving DecidableEq, Repr

/-- Risk level enumeration, from the RiskLevel enum of the entities module. -/
inductive RiskLevel where
  | low
  | medium
  | high
deriving DecidableEq, Repr

/-- A persisted transaction row as read back by the insights service.
The date is the epoch-millisecond value of the JS Date; amount and balance
are the decimal(15,2) database columns, modelled as exact rationals. Fields
not read by the insights computation (id, description, isIncome,
categoryConfidence, rawData, statementId) are omitted. -/
structure Transaction where
  date : ℤ
  amount : ℚ
  balance : ℚ
  type : TransactionType
  category : TransactionCategory
deriving DecidableEq, Repr

/-- Model of JS Math.round on exact rationals: round half toward positive
infinity. -/
def mathRound (x : ℚ) : ℤ := Int.floor (x + 1 / 2)

/-- Rounding to 2 decimal places, as in the idiom Math.round(x * 100) / 100
used throughout the insights service. -/
def round2 (x : ℚ) : ℚ := (mathRound (x * 100) : ℚ) / 100

/-- Rounding to 4 decimal places, as in Math.round(x * 10000) / 10000 used
for the parsing success rate. -/
def round4 (x : ℚ) : ℚ := (mathRound (x * 10000) : ℚ) / 10000

/-- Model of JS Math.min spread over a list; the default is returned on the
empty list (unreachable inside computeInsights, which rejects empty input). -/
def foldMin {α : Type} [Min α] (d : α) : List α → α
  | [] => d
  | x :: xs => xs.foldl min x

/-- Model of JS Math.max spread over a list; the default is returned on the
empty list (unreachable inside computeInsights). -/
def foldMax {α : Type} [Max α] (d : α) : List α → α
  | [] => d
  | x :: xs => xs.foldl max x

/-- Result record of computeIncomeAnalysis. -/
structure IncomeAnalysis where
  avgMonthlyIncome : ℚ
  totalIncome : ℚ
  incomeTransactionCount : ℕ
deriving DecidableEq, Repr

/-- Embedding of InsightsComputationService.computeIncomeAnalysis: credit
transactions are the income set; periodMonths = max 1 of the date span in
units of 30 days; monetary outputs go through round2. The JS `|| 0` guards
are identities here (no NaN and no negative zero in exact rationals). -/
def computeIncomeAnalysis (ts : List Transaction) : IncomeAnalysis :=
  let incomeTransactions := ts.filter (fun t => t.type == TransactionType.credit)
  let totalIncome : ℚ := (incomeTransactions.map (fun t => t.amount)).sum
  let periodStart := foldMin 0 (ts.map (fun t => t.date))
  let periodEnd := foldMax 0 (ts.map (fun t => t.date))
  let periodMonths : ℚ :=
    max 1 (((periodEnd - periodStart : ℤ) : ℚ) / (30 * 24 * 60 * 60 * 1000))
  let avgMonthlyIncome := totalIncome / periodMonths
  { avgMonthlyIncome := round2 avgMonthlyIncome
    totalIncome := round2 totalIncome
    incomeTransactionCount := incomeTransactions.length }

/-- Result record of computeCashFlowAnalysis. -/
structure CashFlowAnalysis where
  totalInflow : ℚ
  totalOutflow : ℚ
  netCashFlow : ℚ
deriving DecidableEq, Repr

/-- Unrounded sum of CREDIT amounts, the reduce in computeCashFlowAnalysis. -/
def rawInflow (ts : List Transaction) : ℚ :=
  ((ts.filter (fun t => t.type == TransactionType.credit)).map (fun t => t.amount)).sum

/-- Unrounded sum of DEBIT amounts, the reduce in computeCashFlowAnalysis. -/
def rawOutflow (ts : List Transaction) : ℚ :=
  ((ts.filter (fun t => t.type == TransactionType.debit)).map (fun t => t.amount)).sum

/-- Embedding of InsightsComputationService.computeCashFlowAnalysis. -/
def computeCashFlowAnalysis (ts : List Transaction) : CashFlowAnalysis :=
  { totalInflow := round2 (rawInflow ts)
    totalOutflow := round2 (rawOutflow ts)
    netCashFlow := round2 (rawInflow ts - rawOutflow ts) }

/-- The eight spending buckets of computeSpendingBuckets. -/
structure SpendBuckets where
  groceriesSpend : ℚ
  entertainmentSpend : ℚ
  transportSpend : ℚ
  utilitiesSpend : ℚ
  healthcareSpend : ℚ
  shoppingSpend : ℚ
  diningSpend : ℚ
  otherSpend : ℚ
deriving DecidableEq, Repr

/-- The all-zero initial buckets object. -/
def zeroBuckets : SpendBuckets := ⟨0, 0, 0, 0, 0, 0, 0, 0⟩

/-- One iteration of the forEach/switch in computeSpendingBuckets: the
transaction amount is added to the bucket selected by its category, with the
default arm feeding otherSpend. -/
def bucketsStep (b : SpendBuckets) (t : Transaction) : SpendBuckets :=
  match t.category with
  | TransactionCategory.groceries =>
      { b with groceriesSpend := b.groceriesSpend + t.amount }
  | TransactionCategory.entertainment =>
      { b with entertainmentSpend := b.entertainmentSpend + t.amount }
  | TransactionCategory.transport =>
      { b with transportSpend := b.transportSpend + t.amount }
  | TransactionCategory.utilities =>
      { b with utilitiesSpend := b.utilitiesSpend + t.amount }
  | TransactionCategory.healthcare =>
      { b with healthcareSpend := b.healthcareSpend + t.amount }
  | TransactionCategory.shopping =>
      { b with shoppingSpend := b.shoppingSpend + t.amount }
  | TransactionCategory.dining =>
      { b with diningSpend := b.diningSpend + t.amount }
  | _ => { b with otherSpend := b.otherSpend + t.amount }

/-- The accumulation phase of computeSpendingBuckets, before the final
rounding pass: fold the switch over the DEBIT transactions. -/
def computeSpendingBucketsRaw (ts : List Transaction) : SpendBuckets :=
  (ts.filter (fun t => t.type == TransactionType.debit)).foldl bucketsStep zeroBuckets

/-- The final rounding pass of computeSpendingBuckets (round2 each value). -/
def roundBuckets (b : SpendBuckets) : SpendBuckets :=
  ⟨round2 b.groceriesSpend, round2 b.entertainmentSpend, round2 b.transportSpend,
    round2 b.utilitiesSpend, round2 b.healthcareSpend, round2 b.shoppingSpend,
    round2 b.diningSpend, round2 b.otherSpend⟩

/-- Embedding of InsightsComputationService.computeSpendingBuckets. -/
def computeSpendingBuckets (ts : List Transaction) : SpendBuckets :=
  roundBuckets (computeSpendingBucketsRaw ts)

/-- A rational formatted with JS Number.toFixed(2) semantics (round half
toward positive infinity at two decimals, then print). Used only to build
the high-fees risk flag message. -/
def toFixed2 (q : ℚ) : String :=
  let n : ℤ := mathRound (q * 100)
  let m : ℕ := n.natAbs
  let fracPart := m % 100
  let fracStr := if fracPart < 10 then "0" ++ toString fracPart else toString fracPart
  (if n < 0 then "-" else "") ++ toString (m / 100) ++ "." ++ fracStr

/-- Result record of computeRiskAnalysis. -/
structure RiskAnalysis where
  overdraftCount : ℕ
  bouncedPaymentCount : ℕ
  avgDailyBalance : ℚ
  minBalance : ℚ
  maxBalance : ℚ
  riskLevel : RiskLevel
  riskFlags : List String
deriving DecidableEq, Repr

/-- The adjacent-pair test of the bounced-payment scan: transaction i is a
DEBIT of amount over 100 leaving a negative balance, and transaction i+1 is
in the fees/charges category. -/
def bouncedPair (p : Transaction × Transaction) : Bool :=
  p.1.type == TransactionType.debit && decide (p.1.amount > 100) &&
    decide (p.1.balance < 0) && p.2.category == TransactionCategory.feesCharges

/-- Embedding of InsightsComputationService.computeRiskAnalysis. The
imperative flag pushes become ordered concatenation of conditional
singletons; the for loop over indices 0..length-2 becomes a countP over the
list zipped with its tail; the riskLevel assignment chain becomes the
corresponding if-then-else. -/
def computeRiskAnalysis (ts : List Transaction) : RiskAnalysis :=
  let balances := ts.map (fun t => t.balance)
  let minBalance := foldMin 0 balances
  let maxBalance := foldMax 0 balances
  let avgDailyBalance := balances.sum / (balances.length : ℚ)
  let overdraftCount := (balances.filter (fun b => decide (b < 0))).length
  let overdraftFlags : List String :=
    if overdraftCount > 0 then [s!"{overdraftCount} overdraft incidents detected"] else []
  let bouncedPaymentCount := (ts.zip ts.tail).countP bouncedPair
  let bouncedFlags : List String :=
    if bouncedPaymentCount > 0 then [s!"{bouncedPaymentCount} potential bounced payments"] else []
  let feeTransactions := ts.filter (fun t => t.category == TransactionCategory.feesCharges)
  let totalFees : ℚ := (feeTransactions.map (fun t => t.amount)).sum
  let feeFlags : List String :=
    if totalFees > 100 then [let s := toFixed2 totalFees; s!"High fees charged: {s}"] else []
  let lowBalanceFlags : List String :=
    if avgDailyBalance < 100 then ["Low average daily balance"] else []
  let debitAmounts :=
    (ts.filter (fun t => t.type == TransactionType.debit)).map (fun t => t.amount)
  let volatileFlags : List String :=
    if debitAmounts.length > 0 then
      let avgSpend := debitAmounts.sum / (debitAmounts.length : ℚ)
      let largeTransactions := (debitAmounts.filter (fun a => decide (a > avgSpend * 3))).length
      if (largeTransactions : ℚ) > (debitAmounts.length : ℚ) * (1 / 10) then
        ["Volatile spending patterns detected"]
      else []
    else []
  let riskLevel :=
    if overdraftCount > 5 ∨ bouncedPaymentCount > 2 ∨ avgDailyBalance < 50 then
      RiskLevel.high
    else if overdraftCount > 2 ∨ bouncedPaymentCount > 0 ∨ avgDailyBalance < 200 ∨
        totalFees > 50 then
      RiskLevel.medium
    else RiskLevel.low
  { overdraftCount := overdraftCount
    bouncedPaymentCount := bouncedPaymentCount
    avgDailyBalance := round2 avgDailyBalance
    minBalance := round2 minBalance
    maxBalance := round2 maxBalance
    riskLevel := riskLevel
    riskFlags := overdraftFlags ++ bouncedFlags ++ feeFlags ++ lowBalanceFlags ++ volatileFlags }

/-- Result record of computeParsingStats. -/
structure ParsingStats where
  parsingSuccessRate : ℚ
  totalTransactions : ℕ
  successfulTransactions : ℕ
  failedTransactions : ℕ
deriving DecidableEq, Repr

/-- Embedding of InsightsComputationService.computeParsingStats: the counts
are derived from the persisted transaction list alone (total = successful =
its length, failed = 0), not from the ingestion outcome. -/
def computeParsingStats (ts : List Transaction) : ParsingStats :=
  let totalTransactions := ts.length
  let successfulTransactions := ts.length
  let failedTransactions := 0
  let parsingSuccessRate : ℚ :=
    if totalTransactions > 0 then (successfulTransactions : ℚ) / (totalTransactions : ℚ) else 0
  { parsingSuccessRate := round4 parsingSuccessRate
    totalTransactions := totalTransactions
    successfulTransactions := successfulTransactions
    failedTransactions := failedTransactions }

/-- The flattened aggregate record returned by computeInsights, matching the
ComputedInsights interface of the insights computation service. -/
structure ComputedInsights where
  avgMonthlyIncome : ℚ
  totalIncome : ℚ
  incomeTransactionCount : ℕ
  totalInflow : ℚ
  totalOutflow : ℚ
  netCashFlow : ℚ
  groceriesSpend : ℚ
  entertainmentSpend : ℚ
  transportSpend : ℚ
  utilitiesSpend : ℚ
  healthcareSpend : ℚ
  shoppingSpend : ℚ
  diningSpend : ℚ
  otherSpend : ℚ
  overdraftCount : ℕ
  bouncedPaymentCount : ℕ
  avgDailyBalance : ℚ
  minBalance : ℚ
  maxBalance : ℚ
  riskLevel : RiskLevel
  riskFlags : List String
  parsingSuccessRate : ℚ
  totalTransactions : ℕ
  successfulTransactions : ℕ
  failedTransactions : ℕ
deriving DecidableEq, Repr

/-- Embedding of InsightsComputationService.computeInsights. The repository
query ordered by date is a collaborator concern; here the ordered transaction
list for the statement is the input. Length zero throws in the source; here
that is the error branch of an Except. -/
def computeInsights (ts : List Transaction) : Except String ComputedInsights :=
  if ts.length = 0 then Except.error "No transactions found for statement"
  else
    let income := computeIncomeAnalysis ts
    let cashFlow := computeCashFlowAnalysis ts
    let buckets := computeSpendingBuckets ts
    let risk := computeRiskAnalysis ts
    let stats := computeParsingStats ts
    Except.ok
      { avgMonthlyIncome := income.avgMonthlyIncome
        totalIncome := income.totalIncome
        incomeTransactionCount := income.incomeTransactionCount
        totalInflow := cashFlow.totalInflow
        totalOutflow := cashFlow.totalOutflow
        netCashFlow := cashFlow.netCashFlow
        groceriesSpend := buckets.groceriesSpend
        entertainmentSpend := buckets.entertainmentSpend
        transportSpend := buckets.transportSpend
        utilitiesSpend := buckets.utilitiesSpend
        healthcareSpend := buckets.healthcareSpend
        shoppingSpend := buckets.shoppingSpend
        diningSpend := buckets.diningSpend
        otherSpend := buckets.otherSpend
        overdraftCount := risk.overdraftCount
        bouncedPaymentCount := risk.bouncedPaymentCount
        avgDailyBalance := risk.avgDailyBalance
        minBalance := risk.minBalance
        maxBalance := risk.maxBalance
        riskLevel := risk.riskLevel
        riskFlags := risk.riskFlags
        parsingSuccessRate := stats.parsingSuccessRate
        totalTransactions := stats.totalTransactions
        successfulTransactions := stats.successfulTransactions
        failedTransactions := stats.failedTransactions }

/-! The CSV row parser and categorizer (csv-parser.service.ts). A raw row is
the ordered column-name / string-value mapping produced by the csv-parser
stream for one line. JS parseFloat is modelled exactly on its grammar
(longest valid signed-decimal prefix, NaN when there is none, Infinity
literals included); the JS Date constructor is modelled on the ISO
YYYY-MM-DD subset, which is the only shape this development evaluates. -/

/-- A raw CSV row: ordered mapping of column name to string value. -/
abbrev RawRow := List (String × String)

/-- A JS number as produced by parseFloat: NaN, a signed infinity, or a
finite value (idealized as an exact rational). -/
inductive JsNum where
  | nan
  | inf (neg : Bool)
  | num (q : ℚ)
deriving DecidableEq, Repr

/-- Math.abs on a JS number. -/
def JsNum.abs : JsNum → JsNum
  | JsNum.nan => JsNum.nan
  | JsNum.inf _ => JsNum.inf false
  | JsNum.num q => JsNum.num (if q < 0 then -q else q)

/-- The JS comparison x >= 0 on a parseFloat result (false on NaN). -/
def JsNum.ge0 : JsNum → Bool
  | JsNum.nan => false
  | JsNum.inf neg => !neg
  | JsNum.num q => decide (0 ≤ q)

/-- ASCII whitespace as matched by the regex class backslash-s. -/
def jsWhitespace (c : Char) : Bool :=
  c == ' ' || c == '\t' || c == '\n' || c == '\r' || c == '\x0b' || c == '\x0c'

/-- Model of the JS String.prototype.trim call: strip leading and trailing
whitespace. -/
def jsTrim (s : String) : String :=
  String.mk (((s.toList.dropWhile jsWhitespace).reverse.dropWhile jsWhitespace).reverse)

/-- ASCII lower-casing of one character, the alphabet relevant to the
keyword tables. -/
def toLowerChar (c : Char) : Char :=
  if 65 ≤ c.toNat && c.toNat ≤ 90 then Char.ofNat (c.toNat + 32) else c

/-- Model of the JS String.prototype.toLowerCase call on ASCII text. -/
def jsToLower (s : String) : String := String.mk (s.toList.map toLowerChar)

/-- The cleaning regex replace of parseRow: delete currency symbols, commas
and whitespace anywhere in the string. -/
def cleanNumeric (s : String) : String :=
  String.mk (s.toList.filter
    (fun c => !(c == '£' || c == '$' || c == '€' || c == ',' || jsWhitespace c)))

/-- Numeric value of a digit list, most significant first. -/
def digitsVal (l : List Char) : ℕ :=
  l.foldl (fun acc c => acc * 10 + (c.toNat - 48)) 0

/-- Model of JS parseFloat: skip leading whitespace, optional sign, then the
longest prefix that is an Infinity literal or a decimal literal (digits with
optional fraction, optional well-formed exponent); NaN when no such prefix
exists. Trailing characters are ignored. -/
def jsParseFloat (s : String) : JsNum :=
  let l := s.toList.dropWhile jsWhitespace
  let signed : Bool × List Char :=
    match l with
    | '-' :: rest => (true, rest)
    | '+' :: rest => (false, rest)
    | _ => (false, l)
  let neg := signed.1
  let l1 := signed.2
  if ("Infinity".toList).isPrefixOf l1 then JsNum.inf neg
  else
    let intDigits := l1.takeWhile Char.isDigit
    let rest1 := l1.dropWhile Char.isDigit
    let fracSplit : List Char × List Char :=
      match rest1 with
      | '.' :: r => (r.takeWhile Char.isDigit, r.dropWhile Char.isDigit)
      | _ => ([], rest1)
    let fracDigits := fracSplit.1
    let rest2 := fracSplit.2
    if intDigits.isEmpty && fracDigits.isEmpty then JsNum.nan
    else
      let exp : ℤ :=
        match rest2 with
        | e :: r =>
          if e == 'e' || e == 'E' then
            let esigned : Bool × List Char :=
              match r with
              | '-' :: rr => (true, rr)
              | '+' :: rr => (false, rr)
              | _ => (false, r)
            let eds := esigned.2.takeWhile Char.isDigit
            if eds.isEmpty then 0
            else if esigned.1 then -(digitsVal eds : ℤ) else (digitsVal eds : ℤ)
          else 0
        | [] => 0
      let num0 : ℤ := (digitsVal intDigits : ℤ) * (10 : ℤ) ^ fracDigits.length +
        (digitsVal fracDigits : ℤ)
      let signedNum : ℤ := if neg then -num0 else num0
      if 0 ≤ exp then
        JsNum.num (Rat.divInt (signedNum * (10 : ℤ) ^ exp.toNat) ((10 : ℤ) ^ fracDigits.length))
      else
        JsNum.num (Rat.divInt signedNum ((10 : ℤ) ^ fracDigits.length * (10 : ℤ) ^ (-exp).toNat))

/-- Days from the civil epoch 1970-01-01 for a Gregorian date (standard
era/year-of-era computation; all divisions act on non-negative operands for
the four-digit years accepted below). -/
def daysFromCivil (y m d : ℤ) : ℤ :=
  let yAdj := if m ≤ 2 then y - 1 else y
  let era := (if yAdj ≥ 0 then yAdj else yAdj - 399) / 400
  let yoe := yAdj - era * 400
  let doy := (153 * (if m > 2 then m - 3 else m + 9) + 2) / 5 + d - 1
  let doe := yoe * 365 + yoe / 4 - yoe / 100 + doy
  era * 146097 + doe - 719468

/-- Model of the JS Date constructor restricted to ISO YYYY-MM-DD input,
yielding epoch milliseconds at UTC midnight; every other string is treated
as an invalid date (none). Only this shape of date string is evaluated in
this development, and no claim depends on which further formats JS accepts. -/
def jsParseDate (s : String) : Option ℤ :=
  match s.toList with
  | [y1, y2, y3, y4, '-', m1, m2, '-', d1, d2] =>
    if ([y1, y2, y3, y4, m1, m2, d1, d2]).all Char.isDigit then
      let y := (digitsVal [y1, y2, y3, y4] : ℤ)
      let m := (digitsVal [m1, m2] : ℤ)
      let d := (digitsVal [d1, d2] : ℤ)
      if 1 ≤ m && m ≤ 12 && 1 ≤ d && d ≤ 31 then
        some (daysFromCivil y m d * 86400000)
      else none
    else none
  | _ => none

/-- Decide whether pat occurs as a contiguous sublist of the second list,
the semantics of the JS String.includes test. -/
def subList (pat : List Char) : List Char → Bool
  | [] => pat.isEmpty
  | c :: t => pat.isPrefixOf (c :: t) || subList pat t

/-- JS s.includes(pat). -/
def jsIncludes (s pat : String) : Bool := subList pat.toList s.toList

/-- The income keyword list of CsvParserService. -/
def incomeKeywords : List String :=
  ["salary", "wage", "income", "dividend", "interest", "refund", "deposit",
    "credit transfer", "payment received", "cashback", "bonus", "commission"]

/-- The ordered category keyword table of CsvParserService, in the insertion
order of the object literal (which Object.entries preserves). -/
def categoryKeywords : List (TransactionCategory × List String) :=
  [(TransactionCategory.groceries,
      ["supermarket", "grocery", "food", "market", "tesco", "sainsbury", "asda"]),
    (TransactionCategory.entertainment,
      ["cinema", "movie", "netflix", "spotify", "entertainment", "game", "theatre"]),
    (TransactionCategory.transport,
      ["uber", "taxi", "bus", "train", "fuel", "petrol", "parking", "transport"]),
    (TransactionCategory.utilities,
      ["electric", "gas", "water", "internet", "phone", "utility", "council tax"]),
    (TransactionCategory.healthcare,
      ["pharmacy", "doctor", "hospital", "health", "medical", "dental"]),
    (TransactionCategory.shopping,
      ["amazon", "shop", "store", "retail", "purchase", "online"]),
    (TransactionCategory.dining,
      ["restaurant", "cafe", "takeaway", "mcdonald", "kfc", "dining", "food delivery"]),
    (TransactionCategory.education,
      ["school", "university", "course", "education", "tuition", "books"]),
    (TransactionCategory.investment,
      ["investment", "stocks", "shares", "trading", "crypto", "fund"]),
    (TransactionCategory.loanPayment,
      ["loan", "mortgage", "credit card", "repayment", "installment"]),
    (TransactionCategory.feesCharges,
      ["fee", "charge", "penalty", "overdraft", "commission", "service charge"])]

/-- The inner keyword loop of categorizeTransaction: first keyword whose
lower-cased form occurs in the lower-cased description. -/
def kwScan (ld : String) : List String → Option String
  | [] => none
  | kw :: rest => if jsIncludes ld (jsToLower kw) then some (jsToLower kw) else kwScan ld rest

/-- The outer category loop of categorizeTransaction: scan the table in
order; at the first category with a keyword hit, return it with confidence
1 on an exact whole-description match and 4/5 otherwise; fall through to
the OTHER category with confidence 1/10. -/
def catScan (ld : String) : List (TransactionCategory × List String) → TransactionCategory × ℚ
  | [] => (TransactionCategory.other, 1 / 10)
  | (c, kws) :: rest =>
    match kwScan ld kws with
    | some kw => (c, if ld == kw then 1 else 4 / 5)
    | none => catScan ld rest

/-- Embedding of CsvParserService.categorizeTransaction. -/
def categorizeTransaction (description : String) : TransactionCategory × ℚ :=
  catScan (jsToLower description) categoryKeywords

/-- Embedding of CsvParserService.isIncomeTransaction. -/
def isIncomeTransaction (description : String) : Bool :=
  incomeKeywords.any (fun kw => jsIncludes (jsToLower description) (jsToLower kw))

/-- The accepted column aliases for the date field. -/
def dateFields : List String :=
  ["date", "Date", "DATE", "transaction_date", "TransactionDate"]

/-- The accepted column aliases for the description field. -/
def descriptionFields : List String :=
  ["description", "Description", "DESCRIPTION", "memo", "Memo", "details", "Details"]

/-- The accepted column aliases for the amount field. -/
def amountFields : List String :=
  ["amount", "Amount", "AMOUNT", "value", "Value"]

/-- The accepted column aliases for the balance field. -/
def balanceFields : List String :=
  ["balance", "Balance", "BALANCE", "running_balance", "RunningBalance"]

/-- Embedding of CsvParserService.getFieldValue: try the aliases in order;
at the first one whose value is present (and, were the row to carry nulls,
non-null) and non-empty, return that value trimmed; otherwise null. -/
def getFieldValue (row : RawRow) (possibleFields : List String) : Option String :=
  match possibleFields with
  | [] => none
  | f :: rest =>
    match row.lookup f with
    | some v => if v == "" then getFieldValue row rest else some (jsTrim v)
    | none => getFieldValue row rest

/-- Model of JSON.stringify on a raw row, for rows whose keys and values
need no character escaping (the only rows evaluated here). -/
def jsonStringify (row : RawRow) : String :=
  "\x7b" ++
    String.intercalate "," (row.map (fun p => "\"" ++ p.1 ++ "\":\"" ++ p.2 ++ "\"")) ++
    "\x7d"

/-- A parsed transaction as produced by parseRow, the parser counterpart of
the ParsedTransaction interface. The magnitude and balance are parseFloat
results (finite in every realistic row). -/
structure ParsedTransaction where
  date : ℤ
  description : String
  amount : JsNum
  balance : JsNum
  type : TransactionType
  category : TransactionCategory
  isIncome : Bool
  categoryConfidence : ℚ
  rawData : String
deriving DecidableEq, Repr

/-- Embedding of CsvParserService.parseRow. Returns ok none for the skipped
row outcome (unresolvable or falsy date, description or amount), error for
the thrown ParseRowError cases (bad date, non-numeric amount), and ok some
for an accepted row. The rowNumber parameter is unused, as in the source. -/
def parseRow (row : RawRow) (_rowNumber : ℕ) : Except String (Option ParsedTransaction) :=
  let dateStr := getFieldValue row dateFields
  let description := getFieldValue row descriptionFields
  let amountStr := getFieldValue row amountFields
  let balanceStr := getFieldValue row balanceFields
  match dateStr, description, amountStr with
  | some ds, some de, some amts =>
    if ds == "" || de == "" || amts == "" then Except.ok none
    else
      match jsParseDate ds with
      | none => Except.error ("Invalid date format: " ++ ds)
      | some date =>
        match jsParseFloat (cleanNumeric amts) with
        | JsNum.nan => Except.error ("Invalid amount format: " ++ amts)
        | amount =>
          let balance : JsNum :=
            match balanceStr with
            | some bs =>
              if bs == "" then JsNum.num 0
              else
                match jsParseFloat (cleanNumeric bs) with
                | JsNum.nan => JsNum.num 0
                | b => b
            | none => JsNum.num 0
          let type := if amount.ge0 then TransactionType.credit else TransactionType.debit
          let categoryResult := categorizeTransaction de
          let isIncome := type == TransactionType.credit && isIncomeTransaction de
          Except.ok (some
            { date := date
              description := jsTrim de
              amount := amount.abs
              balance := balance
              type := type
              category := categoryResult.1
              isIncome := isIncome
              categoryConfidence := categoryResult.2
              rawData := jsonStringify row })
  | _, _, _ => Except.ok none

/-- The ingestion outcome accumulated by the row loop (the ParseResult
interface): parsed transactions, row counts and per-row error messages. -/
structure ParseResult where
  transactions : List ParsedTransaction
  totalRows : ℕ
  successfulRows : ℕ
  failedRows : ℕ
  errors : List String
deriving DecidableEq, Repr

/-- One iteration of the row loop shared by parseCSV and
processStatementFromBuffer: count the row, then record a success, a skip, or
a caught per-row error; no outcome aborts the batch. -/
def processRowsStep (acc : ParseResult) (row : RawRow) : ParseResult :=
  let n := acc.totalRows + 1
  match parseRow row n with
  | Except.ok (some t) =>
    { acc with
        totalRows := n
        transactions := acc.transactions ++ [t]
        successfulRows := acc.successfulRows + 1 }
  | Except.ok none =>
    { acc with
        totalRows := n
        failedRows := acc.failedRows + 1
        errors := acc.errors ++ [s!"Row {n}: Invalid data format"] }
  | Except.error msg =>
    { acc with
        totalRows := n
        failedRows := acc.failedRows + 1
        errors := acc.errors ++ [s!"Row {n}: {msg}"] }

/-- The batch row loop over an ordered row sequence. -/
def processRows (rows : List RawRow) : ParseResult :=
  rows.foldl processRowsStep ⟨[], 0, 0, 0, []⟩

/-! The resilient bureau client (BureauHttpClientService.checkCredit). One
makeRequest call either resolves to a success, resolves to a failure
carrying an HTTP-ish status (0 for a network failure without a status), or
throws (which the loop body catches, recording status 500). The downstream
behaviour across attempts is an oracle from attempt index to outcome; sleeps
and wall-clock times are irrelevant to the claims and are not modelled. -/

/-- Outcome of one makeRequest invocation, as observed by the retry loop. -/
inductive AttemptOutcome where
  | ok (status : ℕ)
  | fail (status : ℕ)
  | thrown
deriving DecidableEq, Repr

/-- True when the outcome is a resolved success. -/
def AttemptOutcome.isOk : AttemptOutcome → Bool
  | AttemptOutcome.ok _ => true
  | _ => false

/-- Embedding of BureauHttpClientService.isRetryableError: network (status
0), rate limit and 5xx statuses retry. -/
def isRetryableError (statusCode : ℕ) : Bool :=
  ([0, 429, 500, 502, 503, 504] : List ℕ).contains statusCode

/-- A transient outcome in the sense of the retry loop: a thrown request
(recorded as status 500) or a resolved failure with a retryable status. -/
def transientOutcome : AttemptOutcome → Bool
  | AttemptOutcome.ok _ => false
  | AttemptOutcome.fail s => isRetryableError s
  | AttemptOutcome.thrown => true

/-- The observable result of checkCredit: the success flag, retry counter
and last status of the returned BureauRequestResult, plus an instrumentation
field counting how many makeRequest invocations the run performed (the
quantity the service tests observe via toHaveBeenCalledTimes). -/
structure RetryResult where
  success : Bool
  retryCount : ℕ
  httpStatusCode : ℕ
  attemptsMade : ℕ
deriving DecidableEq, Repr

/-- The retry loop body of checkCredit, one constructor step per iteration:
on entry with attempt > 0 the retry counter is bumped (the sleep before the
re-attempt is not modelled); a resolved success returns immediately, a
resolved non-retryable failure returns immediately, and a retryable failure
or a caught throw (status 500) falls through to the next iteration. The
fuel is the number of loop iterations left, maxRetries + 1 at the start. -/
def checkCreditGo (outcomes : ℕ → AttemptOutcome) :
    ℕ → ℕ → ℕ → ℕ → ℕ → RetryResult
  | _, 0, retryCount, made, lastStatus =>
    { success := false, retryCount := retryCount, httpStatusCode := lastStatus,
      attemptsMade := made }
  | attempt, fuel + 1, retryCount, made, _lastStatus =>
    let rc := if 0 < attempt then retryCount + 1 else retryCount
    match outcomes attempt with
    | AttemptOutcome.ok s =>
      { success := true, retryCount := rc, httpStatusCode := s, attemptsMade := made + 1 }
    | AttemptOutcome.fail s =>
      if isRetryableError s then
        checkCreditGo outcomes (attempt + 1) fuel rc (made + 1) s
      else
        { success := false, retryCount := rc, httpStatusCode := s, attemptsMade := made + 1 }
    | AttemptOutcome.thrown =>
      checkCreditGo outcomes (attempt + 1) fuel rc (made + 1) 500

/-- Embedding of BureauHttpClientService.checkCredit for a given downstream
oracle and retry budget: the for loop runs attempts 0 .. maxRetries. -/
def checkCredit (outcomes : ℕ → AttemptOutcome) (maxRetries : ℕ) : RetryResult :=
  checkCreditGo outcomes 0 (maxRetries + 1) 0 0 0

/-! Helper notions and lemmas shared by the claim theorems. -/

/-- A rational is a whole number of cents. Every amount and balance read
back from the decimal(15,2) database columns has this form. -/
def IsCents (q : ℚ) : Prop := ∃ m : ℤ, q = (m : ℚ) / 100

/-- Zero is a whole number of cents. -/
lemma isCents_zero : IsCents 0 := ⟨0, by norm_num⟩

/-- Cent amounts are closed under addition. -/
lemma isCents_add {a b : ℚ} (ha : IsCents a) (hb : IsCents b) : IsCents (a + b) := by
  obtain ⟨m, rfl⟩ := ha
  obtain ⟨n, rfl⟩ := hb
  exact ⟨m + n, by push_cast; ring⟩

/-- Cent amounts are closed under subtraction. -/
lemma isCents_sub {a b : ℚ} (ha : IsCents a) (hb : IsCents b) : IsCents (a - b) := by
  obtain ⟨m, rfl⟩ := ha
  obtain ⟨n, rfl⟩ := hb
  exact ⟨m - n, by push_cast; ring⟩

/-- A sum of cent amounts is a cent amount. -/
lemma isCents_sum {l : List ℚ} (h : ∀ q ∈ l, IsCents q) : IsCents l.sum := by
  induction l with
  | nil => simpa using isCents_zero
  | cons a l ih =>
    rw [List.sum_cons]
    exact isCents_add (h a (List.mem_cons_self a l)) (ih fun q hq => h q (List.mem_cons_of_mem a hq))

/-- The floor of one half is zero. -/
lemma floor_half : ⌊(1 : ℚ) / 2⌋ = 0 := by
  rw [Int.floor_eq_zero_iff]
  constructor <;> norm_num

/-- The floor of an integer plus one half is that integer. -/
lemma floor_int_add_half (m : ℤ) : ⌊(m : ℚ) + 1 / 2⌋ = m := by
  rw [Int.floor_int_add, floor_half]
  omega

/-- round4 fixes zero. -/
lemma round4_zero : round4 0 = 0 := by
  rw [round4, mathRound]
  have h : (0 : ℚ) * 10000 + 1 / 2 = 1 / 2 := by norm_num
  rw [h, floor_half]
  norm_num

/-- round4 fixes one. -/
lemma round4_one : round4 1 = 1 := by
  rw [round4, mathRound]
  have h : (1 : ℚ) * 10000 + 1 / 2 = ((10000 : ℤ) : ℚ) + 1 / 2 := by norm_num
  rw [h, floor_int_add_half]
  norm_num

/-- Rounding to two decimals is the identity on whole-cent amounts. -/
lemma round2_eq_of_isCents {q : ℚ} (h : IsCents q) : round2 q = q := by
  obtain ⟨m, rfl⟩ := h
  have h1 : (m : ℚ) / 100 * 100 = (m : ℚ) := by field_simp
  rw [round2, mathRound, h1, floor_int_add_half]

/-- Every amount occurring in rawInflow is an amount of a member of the
list, so rawInflow of a whole-cent transaction list is whole-cent. -/
lemma isCents_rawInflow {ts : List Transaction} (h : ∀ t ∈ ts, IsCents t.amount) :
    IsCents (rawInflow ts) := by
  refine isCents_sum fun q hq => ?_
  simp only [List.mem_map, List.mem_filter] at hq
  obtain ⟨t, ⟨ht, _⟩, rfl⟩ := hq
  exact h t ht

/-- rawOutflow of a whole-cent transaction list is whole-cent. -/
lemma isCents_rawOutflow {ts : List Transaction} (h : ∀ t ∈ ts, IsCents t.amount) :
    IsCents (rawOutflow ts) := by
  refine isCents_sum fun q hq => ?_
  simp only [List.mem_map, List.mem_filter] at hq
  obtain ⟨t, ⟨ht, _⟩, rfl⟩ := hq
  exact h t ht

/-- The parsing-statistics triple (total, successful, failed) carried by a
computeInsights result, when it is a success. -/
def insightsParsingCounts : Except String ComputedInsights → Option (ℕ × ℕ × ℕ)
  | Except.ok r => some (r.totalTransactions, r.successfulTransactions, r.failedTransactions)
  | Except.error _ => none

/-- A two-row ingestion batch: a fully valid row, then a row with no date
column, which parseRow skips, so the ingestion outcome reports totalRows 2,
successfulRows 1, failedRows 1. -/
def c1Rows : List RawRow :=
  [[("date", "2025-01-01"), ("description", "A"), ("amount", "10")],
    [("description", "B"), ("amount", "5")]]

/-- The persisted transaction batch for c1Rows: exactly the one successfully
parsed row (date 2025-01-01 UTC, credit of 10, balance defaulted to 0,
category OTHER), as processStatementFromBuffer saves it. -/
def c1Persisted : List Transaction :=
  [{ date := 1735689600000, amount := 10, balance := 0,
     type := TransactionType.credit, category := TransactionCategory.other }]

/-- C9: computeInsights on the empty transaction sequence fails with the
empty-input error and never produces a ComputedInsights value. -/
theorem computeInsights_empty_error :
    computeInsights ([] : List Transaction) = Except.error "No transactions found for statement" ∧
      ∀ r : ComputedInsights, computeInsights ([] : List Transaction) ≠ Except.ok r := by
  constructor
  · rfl
  · intro r h
    simp [computeInsights] at h

/-- C1, counterexample: for the two-row batch c1Rows the ingestion outcome
supplies the counts (2, 1, 1), but the ComputedInsights for the persisted
batch carries the counts (1, 1, 0) derived from the stored transactions
alone, so the parsing statistics do not equal the caller-supplied counts. -/
theorem parsingStats_ignores_ingestion_counts :
    (processRows c1Rows).totalRows = 2 ∧
      (processRows c1Rows).successfulRows = 1 ∧
      (processRows c1Rows).failedRows = 1 ∧
      (processRows c1Rows).transactions.length = 1 ∧
      insightsParsingCounts (computeInsights c1Persisted) = some (1, 1, 0) ∧
      insightsParsingCounts (computeInsights c1Persisted) ≠
        some ((processRows c1Rows).totalRows, (processRows c1Rows).successfulRows,
          (processRows c1Rows).failedRows) := by
  refine ⟨by decide, by decide, by decide, by decide, by decide, by decide⟩

/-- C1, amended: the parsing statistics of computeInsights are derived from
the persisted transaction list alone — total and successful both equal its
length, failed is 0, and the success rate is 1 for a non-empty list
(successful/total rounded to 4 decimals) and 0 for an empty one; the counts
of the ingestion outcome are not consulted. -/
theorem computeParsingStats_from_persisted_list (ts : List Transaction) :
    computeParsingStats ts =
      { parsingSuccessRate := if 0 < ts.length then 1 else 0,
        totalTransactions := ts.length,
        successfulTransactions := ts.length,
        failedTransactions := 0 } := by
  rcases Nat.eq_zero_or_pos ts.length with h | h
  · simp [computeParsingStats, h, round4_zero]
  · have hne : (ts.length : ℚ) ≠ 0 := Nat.cast_ne_zero.mpr (by omega)
    simp [computeParsingStats, h, div_self hne, round4_one]

/-- C2: for a non-empty transaction list of whole-cent amounts (the shape of
every batch read back from the decimal(15,2) column), computeInsights
succeeds and its netCashFlow field equals the sum of CREDIT magnitudes minus
the sum of DEBIT magnitudes, exactly. -/
theorem netCashFlow_exact (ts : List Transaction) (hne : ts ≠ [])
    (hc : ∀ t ∈ ts, IsCents t.amount) :
    ∃ r, computeInsights ts = Except.ok r ∧
      r.netCashFlow =
        ((ts.filter (fun t => t.type == TransactionType.credit)).map (fun t => t.amount)).sum -
          ((ts.filter (fun t => t.type == TransactionType.debit)).map (fun t => t.amount)).sum := by
  have hlen : ¬ts.length = 0 := by simpa [List.length_eq_zero] using hne
  refine ⟨_, by rw [computeInsights, if_neg hlen], ?_⟩
  show (computeCashFlowAnalysis ts).netCashFlow = rawInflow ts - rawOutflow ts
  have h := round2_eq_of_isCents (isCents_sub (isCents_rawInflow hc) (isCents_rawOutflow hc))
  simpa [computeCashFlowAnalysis] using h

/-- Witness for C2 at a concrete two-transaction list: a credit of 10.50 and
a debit of 3 give netCashFlow exactly 10.50 − 3. -/
theorem netCashFlow_exact_witness :
    ∃ r,
      computeInsights
          [{ date := 0, amount := 21 / 2, balance := 5, type := TransactionType.credit,
             category := TransactionCategory.other },
            { date := 0, amount := 3, balance := 2, type := TransactionType.debit,
              category := TransactionCategory.groceries }] = Except.ok r ∧
        r.netCashFlow = 15 / 2 := by
  obtain ⟨r, h1, h2⟩ :=
    netCashFlow_exact
      [{ date := 0, amount := 21 / 2, balance := 5, type := TransactionType.credit,
         category := TransactionCategory.other },
        { date := 0, amount := 3, balance := 2, type := TransactionType.debit,
          category := TransactionCategory.groceries }]
      (by decide)
      (by
        intro t ht
        simp only [List.mem_cons, List.not_mem_nil, or_false] at ht
        rcases ht with rfl | rfl
        · exact ⟨1050, by norm_num⟩
        · exact ⟨300, by norm_num⟩)
  refine ⟨r, h1, ?_⟩
  rw [h2]
  norm_num [List.filter,
    show (TransactionType.debit == TransactionType.credit) = false from rfl,
    show (TransactionType.credit == TransactionType.debit) = false from rfl,
    show (TransactionType.credit == TransactionType.credit) = true from rfl,
    show (TransactionType.debit == TransactionType.debit) = true from rfl]

/-- The seven categories with a named spending bucket; every other category
falls to the default switch arm. -/
def namedBucketCategory : TransactionCategory → Bool
  | TransactionCategory.groceries => true
  | TransactionCategory.entertainment => true
  | TransactionCategory.transport => true
  | TransactionCategory.utilities => true
  | TransactionCategory.healthcare => true
  | TransactionCategory.shopping => true
  | TransactionCategory.dining => true
  | _ => false

/-- Sum of the amounts of the transactions of one category in a list. -/
def catAmountSum (l : List Transaction) (c : TransactionCategory) : ℚ :=
  ((l.filter (fun t => t.category == c)).map (fun t => t.amount)).sum

/-- Sum of the amounts of the transactions whose category has no named
bucket. -/
def otherAmountSum (l : List Transaction) : ℚ :=
  ((l.filter (fun t => !namedBucketCategory t.category)).map (fun t => t.amount)).sum

/-- Cons step of the per-category amount sum. -/
lemma catAmountSum_cons (t : Transaction) (l : List Transaction) (c : TransactionCategory) :
    catAmountSum (t :: l) c = (if t.category = c then t.amount else 0) + catAmountSum l c := by
  rw [catAmountSum, List.filter_cons]
  by_cases h : t.category = c
  · simp [h, catAmountSum]
  · simp [h, catAmountSum]

/-- Cons step of the unnamed-bucket amount sum. -/
lemma otherAmountSum_cons (t : Transaction) (l : List Transaction) :
    otherAmountSum (t :: l) =
      (if namedBucketCategory t.category then 0 else t.amount) + otherAmountSum l := by
  rw [otherAmountSum, List.filter_cons]
  by_cases h : namedBucketCategory t.category = true
  · simp [h, otherAmountSum]
  · simp [h, otherAmountSum]

/-- Folding the bucket switch over any transaction list adds, per bucket,
exactly the per-category amount sums to the initial buckets. -/
lemma foldl_bucketsStep (l : List Transaction) (b : SpendBuckets) :
    l.foldl bucketsStep b =
      ⟨b.groceriesSpend + catAmountSum l TransactionCategory.groceries,
        b.entertainmentSpend + catAmountSum l TransactionCategory.entertainment,
        b.transportSpend + catAmountSum l TransactionCategory.transport,
        b.utilitiesSpend + catAmountSum l TransactionCategory.utilities,
        b.healthcareSpend + catAmountSum l TransactionCategory.healthcare,
        b.shoppingSpend + catAmountSum l TransactionCategory.shopping,
        b.diningSpend + catAmountSum l TransactionCategory.dining,
        b.otherSpend + otherAmountSum l⟩ := by
  induction l generalizing b with
  | nil => simp [catAmountSum, otherAmountSum]
  | cons t l ih =>
    rw [List.foldl_cons, ih]
    cases htc : t.category <;>
      simp [bucketsStep, htc, catAmountSum_cons, otherAmountSum_cons, namedBucketCategory,
        SpendBuckets.mk.injEq] <;>
      ring

/-- The eight per-category sums partition the total amount of any list. -/
lemma bucketSums_partition (l : List Transaction) :
    catAmountSum l TransactionCategory.groceries +
        catAmountSum l TransactionCategory.entertainment +
        catAmountSum l TransactionCategory.transport +
        catAmountSum l TransactionCategory.utilities +
        catAmountSum l TransactionCategory.healthcare +
        catAmountSum l TransactionCategory.shopping +
        catAmountSum l TransactionCategory.dining +
        otherAmountSum l =
      (l.map (fun t => t.amount)).sum := by
  induction l with
  | nil => simp [catAmountSum, otherAmountSum]
  | cons t l ih =>
    simp only [catAmountSum_cons, otherAmountSum_cons, List.map_cons, List.sum_cons]
    cases htc : t.category <;>
      simp [htc, namedBucketCategory] <;>
      linarith [ih]

/-- C10: in the unrounded bucket accumulation each DEBIT amount lands in
exactly one bucket — the seven categories with named buckets feed their own
bucket, every other category (in particular EDUCATION, INVESTMENT,
LOAN_PAYMENT and FEES_CHARGES) feeds the other bucket — and the eight
unrounded bucket totals sum to the unrounded total outflow. -/
theorem spendingBuckets_partition (ts : List Transaction) :
    (computeSpendingBucketsRaw ts).groceriesSpend =
        catAmountSum (ts.filter (fun t => t.type == TransactionType.debit))
          TransactionCategory.groceries ∧
      (computeSpendingBucketsRaw ts).entertainmentSpend =
        catAmountSum (ts.filter (fun t => t.type == TransactionType.debit))
          TransactionCategory.entertainment ∧
      (computeSpendingBucketsRaw ts).transportSpend =
        catAmountSum (ts.filter (fun t => t.type == TransactionType.debit))
          TransactionCategory.transport ∧
      (computeSpendingBucketsRaw ts).utilitiesSpend =
        catAmountSum (ts.filter (fun t => t.type == TransactionType.debit))
          TransactionCategory.utilities ∧
      (computeSpendingBucketsRaw ts).healthcareSpend =
        catAmountSum (ts.filter (fun t => t.type == TransactionType.debit))
          TransactionCategory.healthcare ∧
      (computeSpendingBucketsRaw ts).shoppingSpend =
        catAmountSum (ts.filter (fun t => t.type == TransactionType.debit))
          TransactionCategory.shopping ∧
      (computeSpendingBucketsRaw ts).diningSpend =
        catAmountSum (ts.filter (fun t => t.type == TransactionType.debit))
          TransactionCategory.dining ∧
      (computeSpendingBucketsRaw ts).otherSpend =
        otherAmountSum (ts.filter (fun t => t.type == TransactionType.debit)) ∧
      namedBucketCategory TransactionCategory.education = false ∧
      namedBucketCategory TransactionCategory.investment = false ∧
      namedBucketCategory TransactionCategory.loanPayment = false ∧
      namedBucketCategory TransactionCategory.feesCharges = false ∧
      (computeSpendingBucketsRaw ts).groceriesSpend +
          (computeSpendingBucketsRaw ts).entertainmentSpend +
          (computeSpendingBucketsRaw ts).transportSpend +
          (computeSpendingBucketsRaw ts).utilitiesSpend +
          (computeSpendingBucketsRaw ts).healthcareSpend +
          (computeSpendingBucketsRaw ts).shoppingSpend +
          (computeSpendingBucketsRaw ts).diningSpend +
          (computeSpendingBucketsRaw ts).otherSpend =
        rawOutflow ts := by
  have h := foldl_bucketsStep (ts.filter (fun t => t.type == TransactionType.debit)) zeroBuckets
  rw [computeSpendingBucketsRaw, h]
  simp [zeroBuckets, namedBucketCategory, bucketSums_partition, rawOutflow]

/-- The overdraft count of computeRiskAnalysis: balance entries below 0. -/
def overdraftCountOf (ts : List Transaction) : ℕ :=
  ((ts.map (fun t => t.balance)).filter (fun b => decide (b < 0))).length

/-- The bounced-payment count of computeRiskAnalysis: adjacent pairs where a
large overdrawing debit is followed by a fees/charges transaction. -/
def bouncedPaymentCountOf (ts : List Transaction) : ℕ :=
  (ts.zip ts.tail).countP bouncedPair

/-- The mean of the balance series, as used unrounded by the risk tiers. -/
def avgDailyBalanceOf (ts : List Transaction) : ℚ :=
  (ts.map (fun t => t.balance)).sum / ((ts.map (fun t => t.balance)).length : ℚ)

/-- The unrounded fees total of computeRiskAnalysis. -/
def totalFeesOf (ts : List Transaction) : ℚ :=
  ((ts.filter (fun t => t.category == TransactionCategory.feesCharges)).map
    (fun t => t.amount)).sum

/-- C8: for a non-empty transaction list, computeInsights succeeds and its
riskLevel is HIGH when overdraftCount > 5 or bouncedPaymentCount > 2 or
avgDailyBalance < 50, else MEDIUM when overdraftCount > 2 or
bouncedPaymentCount > 0 or avgDailyBalance < 200 or totalFees > 50, else
LOW — evaluated in exactly this order, first matching tier winning. -/
theorem riskLevel_tiers (ts : List Transaction) (hne : ts ≠ []) :
    ∃ r, computeInsights ts = Except.ok r ∧
      r.riskLevel =
        (if overdraftCountOf ts > 5 ∨ bouncedPaymentCountOf ts > 2 ∨ avgDailyBalanceOf ts < 50
          then RiskLevel.high
          else if overdraftCountOf ts > 2 ∨ bouncedPaymentCountOf ts > 0 ∨
              avgDailyBalanceOf ts < 200 ∨ totalFeesOf ts > 50
            then RiskLevel.medium
            else RiskLevel.low) := by
  have hlen : ¬ts.length = 0 := by simpa [List.length_eq_zero] using hne
  refine ⟨_, by rw [computeInsights, if_neg hlen], ?_⟩
  show (computeRiskAnalysis ts).riskLevel = _
  rfl

/-- Witness for C8 at a single credit transaction with balance 50: no
overdrafts, no bounced payments, mean balance 50 (not below 50, below 200),
so the second tier fires and the risk level is MEDIUM. -/
theorem riskLevel_tiers_witness :
    ∃ r,
      computeInsights
          [{ date := 0, amount := 100, balance := 50, type := TransactionType.credit,
             category := TransactionCategory.other }] = Except.ok r ∧
        r.riskLevel = RiskLevel.medium := by
  obtain ⟨r, h1, h2⟩ :=
    riskLevel_tiers
      [{ date := 0, amount := 100, balance := 50, type := TransactionType.credit,
         category := TransactionCategory.other }]
      (by decide)
  refine ⟨r, h1, ?_⟩
  rw [h2]
  norm_num [overdraftCountOf, bouncedPaymentCountOf, avgDailyBalanceOf, totalFeesOf,
    List.filter_cons, decide_eq_true_eq]

/-- The retry loop makes at most fuel further makeRequest calls. -/
lemma checkCreditGo_attempts_le (outcomes : ℕ → AttemptOutcome) :
    ∀ (fuel attempt rc made ls : ℕ),
      (checkCreditGo outcomes attempt fuel rc made ls).attemptsMade ≤ made + fuel := by
  intro fuel
  induction fuel with
  | zero => intro attempt rc made ls; simp [checkCreditGo]
  | succ fuel ih =>
    intro attempt rc made ls
    cases h : outcomes attempt with
    | ok s => simp [checkCreditGo, h]
    | fail s =>
      by_cases hr : isRetryableError s = true
      · simp only [checkCreditGo, h, hr, if_true]
        have := ih (attempt + 1) (if 0 < attempt then rc + 1 else rc) (made + 1) s
        omega
      · simp only [checkCreditGo, h, if_neg hr]
        simp
    | thrown =>
      simp only [checkCreditGo, h]
      have := ih (attempt + 1) (if 0 < attempt then rc + 1 else rc) (made + 1) 500
      omega

/-- After a positive attempt index, k transient outcomes followed by a
success make the loop return success with k + 1 more retries counted and
k + 1 more makeRequest calls. -/
lemma checkCreditGo_ok (outcomes : ℕ → AttemptOutcome) :
    ∀ (k fuel a rc made ls : ℕ), 0 < a → k < fuel →
      (∀ i, i < k → transientOutcome (outcomes (a + i)) = true) →
      (outcomes (a + k)).isOk = true →
      (checkCreditGo outcomes a fuel rc made ls).success = true ∧
        (checkCreditGo outcomes a fuel rc made ls).retryCount = rc + k + 1 ∧
        (checkCreditGo outcomes a fuel rc made ls).attemptsMade = made + k + 1 := by
  intro k
  induction k with
  | zero =>
    intro fuel a rc made ls ha hk htrans hok
    match fuel, hk with
    | fuel + 1, _ =>
      rw [Nat.add_zero] at hok
      cases h : outcomes a with
      | ok s => simp [checkCreditGo, h, if_pos ha]
      | fail s => rw [h] at hok; simp [AttemptOutcome.isOk] at hok
      | thrown => rw [h] at hok; simp [AttemptOutcome.isOk] at hok
  | succ k ih =>
    intro fuel a rc made ls ha hk htrans hok
    match fuel, hk with
    | fuel + 1, hk =>
      have h0 : transientOutcome (outcomes a) = true := by
        have := htrans 0 (by omega)
        rwa [Nat.add_zero] at this
      have hshift : ∀ i, i < k → transientOutcome (outcomes (a + 1 + i)) = true := by
        intro i hi
        have := htrans (i + 1) (by omega)
        rwa [show a + (i + 1) = a + 1 + i by omega] at this
      have hok1 : (outcomes (a + 1 + k)).isOk = true := by
        rwa [show a + 1 + k = a + (k + 1) by omega]
      cases h : outcomes a with
      | ok s => rw [h] at h0; simp [transientOutcome] at h0
      | fail s =>
        have hr : isRetryableError s = true := by
          rw [h] at h0; simpa [transientOutcome] using h0
        obtain ⟨hs, hrc, hm⟩ := ih fuel (a + 1) (rc + 1) (made + 1) s (by omega) (by omega)
          hshift hok1
        simp only [checkCreditGo, h, hr, if_true, if_pos ha]
        exact ⟨hs, by omega, by omega⟩
      | thrown =>
        obtain ⟨hs, hrc, hm⟩ := ih fuel (a + 1) (rc + 1) (made + 1) 500 (by omega) (by omega)
          hshift hok1
        simp only [checkCreditGo, h, if_pos ha]
        exact ⟨hs, by omega, by omega⟩

/-- C4: whenever the first k attempts of a checkCredit run fail with
transient outcomes and attempt k + 1 succeeds, with k within the retry
budget, the run reports success with retryCount = k after exactly k + 1
makeRequest calls; and a run never makes more than maxRetries + 1 calls (4
with the default budget 3). -/
theorem checkCredit_transient_then_success :
    (∀ (outcomes : ℕ → AttemptOutcome) (maxRetries k : ℕ),
        k ≤ maxRetries →
        (∀ i, i < k → transientOutcome (outcomes i) = true) →
        (outcomes k).isOk = true →
        (checkCredit outcomes maxRetries).success = true ∧
          (checkCredit outcomes maxRetries).retryCount = k ∧
          (checkCredit outcomes maxRetries).attemptsMade = k + 1) ∧
      ∀ (outcomes : ℕ → AttemptOutcome) (maxRetries : ℕ),
        (checkCredit outcomes maxRetries).attemptsMade ≤ maxRetries + 1 := by
  constructor
  · intro outcomes maxRetries k hk htrans hok
    rw [checkCredit]
    cases k with
    | zero =>
      cases h : outcomes 0 with
      | ok s => simp [checkCreditGo, h]
      | fail s => rw [h] at hok; simp [AttemptOutcome.isOk] at hok
      | thrown => rw [h] at hok; simp [AttemptOutcome.isOk] at hok
    | succ j =>
      have h0 : transientOutcome (outcomes 0) = true := htrans 0 (by omega)
      have hshift : ∀ i, i < j → transientOutcome (outcomes (0 + 1 + i)) = true := by
        intro i hi
        have := htrans (i + 1) (by omega)
        rwa [show i + 1 = 0 + 1 + i by omega] at this
      have hok1 : (outcomes (0 + 1 + j)).isOk = true := by
        rwa [show 0 + 1 + j = j + 1 by omega]
      cases h : outcomes 0 with
      | ok s => rw [h] at h0; simp [transientOutcome] at h0
      | fail s =>
        have hr : isRetryableError s = true := by
          rw [h] at h0; simpa [transientOutcome] using h0
        obtain ⟨hs, hrc, hm⟩ := checkCreditGo_ok outcomes j maxRetries (0 + 1) 0 (0 + 1) s
          (by omega) (by omega) hshift hok1
        simp only [checkCreditGo, h, hr, if_true, Nat.lt_irrefl, if_false]
        exact ⟨hs, by omega, by omega⟩
      | thrown =>
        obtain ⟨hs, hrc, hm⟩ := checkCreditGo_ok outcomes j maxRetries (0 + 1) 0 (0 + 1) 500
          (by omega) (by omega) hshift hok1
        simp only [checkCreditGo, h, Nat.lt_irrefl, if_false]
        exact ⟨hs, by omega, by omega⟩
  · intro outcomes maxRetries
    have := checkCreditGo_attempts_le outcomes (maxRetries + 1) 0 0 0 0
    rw [checkCredit]
    omega

/-- The downstream oracle of the spec example: three 500 failures, then
success. -/
def threeFailuresOracle : ℕ → AttemptOutcome :=
  fun i => if i < 3 then AttemptOutcome.fail 500 else AttemptOutcome.ok 200

/-- Witness for C4: three consecutive 500 failures then a success under the
default budget 3 give success with retryCount 3 after 4 calls. -/
theorem checkCredit_transient_then_success_witness :
    (checkCredit threeFailuresOracle 3).success = true ∧
      (checkCredit threeFailuresOracle 3).retryCount = 3 ∧
      (checkCredit threeFailuresOracle 3).attemptsMade = 4 :=
  checkCredit_transient_then_success.1 threeFailuresOracle 3 3 (by decide)
    (fun i hi => by interval_cases i <;> decide) (by decide)

/-- After a positive attempt index, k transient outcomes followed by a
non-retryable failure make the loop stop at that failure. -/
lemma checkCreditGo_fail (outcomes : ℕ → AttemptOutcome) :
    ∀ (k fuel a rc made ls s : ℕ), 0 < a → k < fuel →
      (∀ i, i < k → transientOutcome (outcomes (a + i)) = true) →
      outcomes (a + k) = AttemptOutcome.fail s →
      isRetryableError s = false →
      checkCreditGo outcomes a fuel rc made ls =
        { success := false, retryCount := rc + k + 1, httpStatusCode := s,
          attemptsMade := made + k + 1 } := by
  intro k
  induction k with
  | zero =>
    intro fuel a rc made ls s ha hk htrans hfail hperm
    match fuel, hk with
    | fuel + 1, _ =>
      rw [Nat.add_zero] at hfail
      simp [checkCreditGo, hfail, hperm, if_pos ha]
  | succ k ih =>
    intro fuel a rc made ls s ha hk htrans hfail hperm
    match fuel, hk with
    | fuel + 1, hk =>
      have h0 : transientOutcome (outcomes a) = true := by
        have := htrans 0 (by omega)
        rwa [Nat.add_zero] at this
      have hshift : ∀ i, i < k → transientOutcome (outcomes (a + 1 + i)) = true := by
        intro i hi
        have := htrans (i + 1) (by omega)
        rwa [show a + (i + 1) = a + 1 + i by omega] at this
      have hfail1 : outcomes (a + 1 + k) = AttemptOutcome.fail s := by
        rwa [show a + 1 + k = a + (k + 1) by omega]
      cases h : outcomes a with
      | ok u => rw [h] at h0; simp [transientOutcome] at h0
      | fail u =>
        have hr : isRetryableError u = true := by
          rw [h] at h0; simpa [transientOutcome] using h0
        simp only [checkCreditGo, h, hr, if_true, if_pos ha]
        rw [ih fuel (a + 1) (rc + 1) (made + 1) u s (by omega) (by omega) hshift hfail1 hperm]
        congr 1 <;> omega
      | thrown =>
        simp only [checkCreditGo, h, if_pos ha]
        rw [ih fuel (a + 1) (rc + 1) (made + 1) 500 s (by omega) (by omega) hshift hfail1 hperm]
        congr 1 <;> omega

/-- C5: a permanent failure status in the set 400, 401, 403, 404 at attempt
j (after j transient outcomes, within the budget) makes checkCredit return
immediately with success false, retryCount = j (the retries already
consumed) and exactly j + 1 makeRequest calls. -/
theorem checkCredit_permanent_stops (outcomes : ℕ → AttemptOutcome)
    (maxRetries j s : ℕ) (hj : j ≤ maxRetries)
    (htrans : ∀ i, i < j → transientOutcome (outcomes i) = true)
    (hfail : outcomes j = AttemptOutcome.fail s)
    (hperm : s ∈ ([400, 401, 403, 404] : List ℕ)) :
    checkCredit outcomes maxRetries =
      { success := false, retryCount := j, httpStatusCode := s, attemptsMade := j + 1 } := by
  have hr : isRetryableError s = false := by
    simp only [List.mem_cons, List.not_mem_nil, or_false] at hperm
    rcases hperm with rfl | rfl | rfl | rfl <;> decide
  rw [checkCredit]
  cases j with
  | zero =>
    simp [checkCreditGo, hfail, hr]
  | succ j =>
    have h0 : transientOutcome (outcomes 0) = true := htrans 0 (by omega)
    have hshift : ∀ i, i < j → transientOutcome (outcomes (0 + 1 + i)) = true := by
      intro i hi
      have := htrans (i + 1) (by omega)
      rwa [show i + 1 = 0 + 1 + i by omega] at this
    have hfail1 : outcomes (0 + 1 + j) = AttemptOutcome.fail s := by
      rwa [show 0 + 1 + j = j + 1 by omega]
    cases h : outcomes 0 with
    | ok u => rw [h] at h0; simp [transientOutcome] at h0
    | fail u =>
      have hru : isRetryableError u = true := by
        rw [h] at h0; simpa [transientOutcome] using h0
      simp only [checkCreditGo, h, hru, if_true, Nat.lt_irrefl, if_false]
      rw [checkCreditGo_fail outcomes j maxRetries (0 + 1) 0 (0 + 1) u s (by omega)
        (by omega) hshift hfail1 hr]
      congr 1 <;> omega
    | thrown =>
      simp only [checkCreditGo, h, Nat.lt_irrefl, if_false]
      rw [checkCreditGo_fail outcomes j maxRetries (0 + 1) 0 (0 + 1) 500 s (by omega)
        (by omega) hshift hfail1 hr]
      congr 1 <;> omega

/-- The downstream oracle that always answers 400. -/
def alwaysBadRequestOracle : ℕ → AttemptOutcome := fun _ => AttemptOutcome.fail 400

/-- Witness for C5: a 400 failure on the first attempt gives success false
with retryCount 0 after a single call. -/
theorem checkCredit_permanent_stops_witness :
    checkCredit alwaysBadRequestOracle 3 =
      { success := false, retryCount := 0, httpStatusCode := 400, attemptsMade := 1 } :=
  checkCredit_permanent_stops alwaysBadRequestOracle 3 0 400 (by decide)
    (fun i hi => by omega) (by decide) (by decide)

/-- C6: getFieldValue resolves each logical field to the (trimmed) value of
the first alias column, in the fixed alias order, whose value is present and
non-empty (null values cannot occur in string-valued rows); and whenever the
date, description or amount field cannot be resolved, parseRow returns the
null outcome without raising any error. -/
theorem getFieldValue_first_alias :
    (∀ (row : RawRow) (aliases : List String),
        getFieldValue row aliases =
          match aliases.find? (fun f => ((row.lookup f).getD "") != "") with
          | some f => some (jsTrim ((row.lookup f).getD ""))
          | none => none) ∧
      ∀ (row : RawRow) (n : ℕ),
        getFieldValue row dateFields = none ∨ getFieldValue row descriptionFields = none ∨
            getFieldValue row amountFields = none →
          parseRow row n = Except.ok none := by
  constructor
  · intro row aliases
    induction aliases with
    | nil => rfl
    | cons f rest ih =>
      cases hlk : row.lookup f with
      | none => simp [getFieldValue, hlk, ih]
      | some v =>
        by_cases hv : v = ""
        · subst hv
          simp [getFieldValue, hlk, ih]
        · simp [getFieldValue, hlk, hv]
  · intro row n h
    rcases h with h | h | h
    · simp [parseRow, h]
    · cases hd : getFieldValue row dateFields <;>
        cases ha : getFieldValue row amountFields <;>
        simp [parseRow, h, hd, ha]
    · cases hd : getFieldValue row dateFields <;>
        cases hde : getFieldValue row descriptionFields <;>
        simp [parseRow, h, hd, hde]

/-- A raw row carrying description and amount but no date column. -/
def noDateRow : RawRow := [("description", "B"), ("amount", "5")]

/-- Witness for C6: the row with no date column resolves no date field and
parseRow returns the null outcome, not an error. -/
theorem getFieldValue_first_alias_witness :
    getFieldValue noDateRow dateFields = none ∧ parseRow noDateRow 1 = Except.ok none := by
  have h : getFieldValue noDateRow dateFields = none := by decide
  exact ⟨h, getFieldValue_first_alias.2 noDateRow 1 (Or.inl h)⟩

/-- The inner keyword loop returns the lower-cased first keyword whose
lower-cased form occurs in the description. -/
lemma kwScan_eq_find (ld : String) (kws : List String) :
    kwScan ld kws = (kws.find? (fun kw => jsIncludes ld (jsToLower kw))).map jsToLower := by
  induction kws with
  | nil => rfl
  | cons kw rest ih =>
    by_cases h : jsIncludes ld (jsToLower kw) = true
    · simp [kwScan, h]
    · simp [kwScan, h, ih]

/-- The category scan is first-match search over the table: the first
category owning a matching keyword wins with its first matching keyword,
and a table with no match at all falls to OTHER with confidence 1/10. -/
lemma catScan_eq_find (ld : String) (table : List (TransactionCategory × List String)) :
    catScan ld table =
      match table.find? (fun p => p.2.any (fun kw => jsIncludes ld (jsToLower kw))) with
      | none => (TransactionCategory.other, 1 / 10)
      | some p =>
        match p.2.find? (fun kw => jsIncludes ld (jsToLower kw)) with
        | none => (TransactionCategory.other, 1 / 10)
        | some kw => (p.1, if ld == jsToLower kw then 1 else 4 / 5) := by
  induction table with
  | nil => rfl
  | cons p rest ih =>
    rcases p with ⟨c, kws⟩
    by_cases h : kws.any (fun kw => jsIncludes ld (jsToLower kw)) = true
    · cases hf : kws.find? (fun kw => jsIncludes ld (jsToLower kw)) with
      | none =>
        rw [List.find?_eq_none] at hf
        rw [List.any_eq_true] at h
        obtain ⟨kw, hkw, hmatch⟩ := h
        exact absurd hmatch (by simpa using hf kw hkw)
      | some kw =>
        rw [catScan, kwScan_eq_find, hf]
        simp [h, hf]
    · rw [catScan, kwScan_eq_find]
      cases hf : kws.find? (fun kw => jsIncludes ld (jsToLower kw)) with
      | none => simp [h, hf, ih]
      | some kw =>
        exact absurd (List.any_eq_true.mpr ⟨kw, List.mem_of_find?_eq_some hf,
          by simpa using List.find?_some hf⟩) h

/-- C7: categorizeTransaction scans the fixed category table in order and
returns, at the first category owning a keyword occurring in the lower-cased
description, that category — with confidence 1 when the whole lower-cased
description equals the (lower-cased) matched keyword and 4/5 otherwise —
never examining later categories; with no match anywhere it returns the
catch-all OTHER category with confidence 1/10. -/
theorem categorizeTransaction_first_match (d : String) :
    categorizeTransaction d =
      match categoryKeywords.find?
          (fun p => p.2.any (fun kw => jsIncludes (jsToLower d) (jsToLower kw))) with
      | none => (TransactionCategory.other, 1 / 10)
      | some p =>
        match p.2.find? (fun kw => jsIncludes (jsToLower d) (jsToLower kw)) with
        | none => (TransactionCategory.other, 1 / 10)
        | some kw => (p.1, if jsToLower d == jsToLower kw then 1 else 4 / 5) := by
  rw [categorizeTransaction, catScan_eq_find]

/-- Well-formedness of the remainder after the digits of a numeral: either
nothing, or a complete exponent part (e/E, optional sign, at least one
digit) with nothing after it. -/
def expPartOk : List Char → Bool
  | [] => true
  | e :: r =>
    (e == 'e' || e == 'E') &&
      (let r1 := match r with
        | '+' :: rr => rr
        | '-' :: rr => rr
        | _ => r
      !r1.isEmpty && r1.all Char.isDigit)

/-- Modelled from the spec: the property of being numeric in the sense of
the claim — the entire string is a signed decimal numeral (optional sign,
digits with optional decimal point and fraction digits, optional exponent),
with no other characters. The code has no such whole-string check; this
definition expresses the claim to compare against the code. -/
def isNumericString (s : String) : Bool :=
  let l := s.toList
  let l1 := match l with
    | '+' :: r => r
    | '-' :: r => r
    | _ => l
  let ds1 := l1.takeWhile Char.isDigit
  let r1 := l1.dropWhile Char.isDigit
  match r1 with
  | '.' :: r2 =>
    let ds2 := r2.takeWhile Char.isDigit
    let r3 := r2.dropWhile Char.isDigit
    (!ds1.isEmpty || !ds2.isEmpty) && expPartOk r3
  | _ => !ds1.isEmpty && expPartOk r1

/-- The magnitude stored by a successful parseRow outcome, when there is
one. -/
def resultAmount : Except String (Option ParsedTransaction) → Option JsNum
  | Except.ok (some t) => some t.amount
  | _ => none

/-- A row whose amount field has a numeric prefix followed by garbage. -/
def trailingGarbageRow : RawRow :=
  [("date", "2025-01-01"), ("description", "Coffee"), ("amount", "12abc")]

/-- C3, counterexample: the cleaned amount string 12abc is not numeric, yet
parseRow raises no error for it — it accepts the row with magnitude 12, the
value of the numeric prefix. -/
theorem parseRow_accepts_nonNumeric_amount :
    isNumericString (cleanNumeric "12abc") = false ∧
      resultAmount (parseRow trailingGarbageRow 1) = some (JsNum.num 12) := by
  constructor <;> decide

/-- C3, amended: for a row whose date, description and amount fields all
resolve to non-empty strings and whose date string parses, parseRow raises
the amount ParseRowError exactly when JS parseFloat of the cleaned amount
string is NaN, i.e. when the cleaned string has no leading signed-decimal
(or Infinity) prefix; and whenever the cleaned string parses to a finite
value q, the row is accepted with stored magnitude |q| and direction CREDIT
exactly when 0 ≤ q — trailing non-numeric characters are ignored rather
than rejected. -/
theorem parseRow_amount_error_iff (row : RawRow) (n : ℕ) (ds de amts : String) (d : ℤ)
    (hd : getFieldValue row dateFields = some ds) (hds : ds ≠ "")
    (hdate : jsParseDate ds = some d)
    (hde : getFieldValue row descriptionFields = some de) (hde2 : de ≠ "")
    (ha : getFieldValue row amountFields = some amts) (ha2 : amts ≠ "") :
    (parseRow row n = Except.error ("Invalid amount format: " ++ amts) ↔
        jsParseFloat (cleanNumeric amts) = JsNum.nan) ∧
      ∀ q : ℚ, jsParseFloat (cleanNumeric amts) = JsNum.num q →
        ∃ t : ParsedTransaction, parseRow row n = Except.ok (some t) ∧
          t.amount = (JsNum.num q).abs ∧
          t.type = (if 0 ≤ q then TransactionType.credit else TransactionType.debit) := by
  have h1 : (ds == "") = false := by simpa using hds
  have h2 : (de == "") = false := by simpa using hde2
  have h3 : (amts == "") = false := by simpa using ha2
  simp only [parseRow, hd, hde, ha, h1, h2, h3, Bool.or_self, Bool.false_or, Bool.or_false,
    Bool.false_eq_true, if_false, hdate]
  constructor
  · cases hpf : jsParseFloat (cleanNumeric amts) with
    | nan => simp [hpf]
    | inf b => simp [hpf]
    | num q => simp [hpf]
  · intro q hpf
    rw [hpf]
    refine ⟨_, rfl, rfl, ?_⟩
    by_cases h0 : 0 ≤ q <;> simp [JsNum.ge0, h0]

/-- A row whose amount has no numeric prefix at all. -/
def badAmountRow : RawRow :=
  [("date", "2025-01-01"), ("description", "Coffee"), ("amount", "abc")]

/-- Witness for the amended C3: a wholly non-numeric amount raises the
amount ParseRowError carrying the raw string. -/
theorem parseRow_amount_error_iff_witness :
    parseRow badAmountRow 1 = Except.error ("Invalid amount format: " ++ "abc") :=
  (parseRow_amount_error_iff badAmountRow 1 "2025-01-01" "Coffee" "abc" 1735689600000
    (by decide) (by decide) (by decide) (by decide) (by decide) (by decide)
    (by decide)).1.mpr (by decide)

end CreditInsight
